import Mathlib

/-!
Shallow embedding of the go-proj binding layer (pj.go, context.go) for
verification of its errno protocol, error handling, handle lifecycle,
lock-ordering and marshaling properties.

The native PROJ engine is opaque: each native entry point is modelled by an
oracle structure describing what the native call returns and what value it
leaves in the per-context/per-PJ error register.  Machine-level details that
no claim touches (the numeric contents the native engine writes into caller
buffers) are abstracted; everything the claims talk about (error register
values, return counts, null-ness of returned handles and of passed pointers,
slice accesses, lock acquisition order) is modelled faithfully,
statement-by-statement, from the Go source.
-/

namespace Proj

/-- Transform direction (PJ_FWD / PJ_IDENT / PJ_INV). -/
inductive Direction where
  | fwd
  | ident
  | inv
deriving DecidableEq, Repr

/-- Go error values produced by the binding layer.  `projError` is the typed
`*proj.Error` built by `Context.newError` and carries the native errno;
`wrap` is `fmt.Errorf` with a `%w` verb wrapping an inner error; `plain` is a
`fmt.Errorf` without a wrapped cause (a bare dynamic error, not a
`*proj.Error`). -/
inductive GoErr where
  | projError (errno : Int)
  | wrap (tag : String) (inner : GoErr)
  | plain (msg : String)
deriving DecidableEq, Repr

/-- Whether an error is the errno-derived typed error `*proj.Error`
(as a Go caller would test with `errors.As`). -/
def GoErr.isProjError : GoErr → Bool
  | .projError _ => true
  | _ => false

/-- Outcome of a Go call: normal value, returned error, or runtime panic. -/
inductive Outcome (α : Type) where
  | ok (a : α)
  | fail (e : GoErr)
  | panic (msg : String)
deriving DecidableEq, Repr

/-- Result of one transform-family call: the Go-level outcome, the value of
the per-context native error register when the call returns, and whether a
native transform entry point was invoked. -/
structure TransResult (α : Type) where
  out : Outcome α
  errno : Int
  nativeCalled : Bool
deriving DecidableEq, Repr

/-- Coordinate: four doubles (x, y, z, m). -/
structure Coord where
  x : Float
  y : Float
  z : Float
  m : Float

/-- Bounds: xmin, ymin, xmax, ymax. -/
structure Bounds where
  xMin : Float
  yMin : Float
  xMax : Float
  yMax : Float

/-- Oracle for `proj_trans`: `errnoEffect` maps the error-register value just
before the native call to its value just after; `coordOut` is the returned
coordinate. -/
structure TransNative where
  errnoEffect : Int → Int
  coordOut : Coord

/-- Oracle for `proj_trans_array`: the int errno it returns, and its effect on
the error register. -/
structure TransArrayNative where
  retErrno : Int
  errnoEffect : Int → Int

/-- Oracle for `proj_trans_generic`: the processed-count it returns (as a Go
int), and its effect on the error register. -/
structure TransGenericNative where
  retCount : Int
  errnoEffect : Int → Int

/-- Oracle for `proj_trans_bounds`: its int return value (0 means failure),
the bounds it writes, and its effect on the error register. -/
structure TransBoundsNative where
  success : Int
  boundsOut : Bounds
  errnoEffect : Int → Int

/-- Embedding of `PJ.Trans` (pj.go).  `st` is the error-register value on
entry.  The body is: `lastErrno := proj_errno_reset(pj)` (capture old value,
register becomes 0), the native `proj_trans` call, `proj_errno` read and
check, with `proj_errno_restore(pj, lastErrno)` deferred, hence applied on
both return paths. -/
def Trans (st : Int) (nat : TransNative) (direction : Direction) (coord : Coord) :
    TransResult Coord :=
  let lastErrno := st
  let reg := nat.errnoEffect 0
  if reg ≠ 0 then ⟨.fail (.projError reg), lastErrno, true⟩
  else ⟨.ok nat.coordOut, lastErrno, true⟩

/-- Embedding of `PJ.Forward` (pj.go): `pj.Trans(DirectionFwd, coord)`. -/
def Forward (st : Int) (nat : TransNative) (coord : Coord) : TransResult Coord :=
  Trans st nat .fwd coord

/-- Embedding of `PJ.Inverse` (pj.go): `pj.Trans(DirectionInv, coord)`. -/
def Inverse (st : Int) (nat : TransNative) (coord : Coord) : TransResult Coord :=
  Trans st nat .inv coord

/-- Embedding of `PJ.TransArray` (pj.go).  Empty input returns nil before the
lock, the errno reset and the native call; otherwise `&coords[0]` is taken
(in bounds since the slice is non-empty), errno is reset, the native
`proj_trans_array` is called and its returned errno checked, and the deferred
restore reinstates the entry value of the register on both paths. -/
def TransArray (st : Int) (nat : TransArrayNative) (direction : Direction)
    (coords : List Coord) : TransResult Unit :=
  if coords.length = 0 then ⟨.ok (), st, false⟩
  else
    let lastErrno := st
    let _reg := nat.errnoEffect 0
    if nat.retErrno ≠ 0 then ⟨.fail (.projError nat.retErrno), lastErrno, true⟩
    else ⟨.ok (), lastErrno, true⟩

/-- Embedding of `PJ.ForwardArray` (pj.go). -/
def ForwardArray (st : Int) (nat : TransArrayNative) (coords : List Coord) :
    TransResult Unit :=
  TransArray st nat .fwd coords

/-- Embedding of `PJ.InverseArray` (pj.go). -/
def InverseArray (st : Int) (nat : TransArrayNative) (coords : List Coord) :
    TransResult Unit :=
  TransArray st nat .inv coords

/-- Embedding of `PJ.TransBounds` (pj.go).  Note the Go body contains no
`proj_errno_reset` / `proj_errno_restore` pair: it locks, calls
`proj_trans_bounds`, and on a zero return builds an error from the current
`proj_errno` value.  The register is left at whatever the native call set. -/
def TransBounds (st : Int) (nat : TransBoundsNative) (direction : Direction)
    (bounds : Bounds) (densifyPoints : Int) : TransResult Bounds :=
  let reg := nat.errnoEffect st
  if nat.success = 0 then ⟨.fail (.projError reg), reg, true⟩
  else ⟨.ok nat.boundsOut, reg, true⟩

/-- Embedding of `PJ.ForwardBounds` (pj.go). -/
def ForwardBounds (st : Int) (nat : TransBoundsNative) (bounds : Bounds)
    (densifyPoints : Int) : TransResult Bounds :=
  TransBounds st nat .fwd bounds densifyPoints

/-- Embedding of `PJ.InverseBounds` (pj.go). -/
def InverseBounds (st : Int) (nat : TransBoundsNative) (bounds : Bounds)
    (densifyPoints : Int) : TransResult Bounds :=
  TransBounds st nat .inv bounds densifyPoints

/-- Embedding of `PJ.TransGeneric` (pj.go).  Errno is reset (saved value
restored by defer on both paths), the native `proj_trans_generic` is called,
and its returned count is compared against `max(nx, ny, nz, nm)`; on mismatch
a typed error is built from the register value read by `proj_errno`.  The
four presence flags stand for the nullability of the x/y/z/m pointers. -/
def TransGeneric (st : Int) (nat : TransGenericNative) (direction : Direction)
    (x : Bool) (sx nx : Int) (y : Bool) (sy ny : Int)
    (z : Bool) (sz nz : Int) (m : Bool) (sm nm : Int) : TransResult Unit :=
  let lastErrno := st
  let reg := nat.errnoEffect 0
  if nat.retCount ≠ max (max (max nx ny) nz) nm then
    ⟨.fail (.projError reg), lastErrno, true⟩
  else ⟨.ok (), lastErrno, true⟩

/-- Go slice indexing of a float64 slice: in-bounds access yields the
element, any other index panics with an index-out-of-range runtime error. -/
def goIndexF (l : List Float) (i : Int) : Except String Float :=
  if h : 0 ≤ i ∧ i.toNat < l.length then .ok (l.get ⟨i.toNat, h.2⟩)
  else .error "index out of range"

/-- Embedding of `PJ.TransFlatCoords` (pj.go).  The zero-length check comes
first; only then is `n := len(flatCoords) / stride` computed (Go integer
division truncates toward zero and panics on a zero divisor), then
`&flatCoords[0]`, `&flatCoords[1]` and — when the index is not -1 —
`&flatCoords[zIndex]` / `&flatCoords[mIndex]` are taken, and the call is
delegated to `TransGeneric` with byte strides `8*stride` and counts `n`. -/
def TransFlatCoords (st : Int) (nat : TransGenericNative) (direction : Direction)
    (flatCoords : List Float) (stride zIndex mIndex : Int) : TransResult Unit :=
  if flatCoords.length = 0 then ⟨.ok (), st, false⟩
  else if stride = 0 then ⟨.panic "integer divide by zero", st, false⟩
  else
    let n : Int := Int.tdiv (flatCoords.length : Int) stride
    match goIndexF flatCoords 0 with
    | .error s => ⟨.panic s, st, false⟩
    | .ok _ =>
      match goIndexF flatCoords 1 with
      | .error s => ⟨.panic s, st, false⟩
      | .ok _ =>
        match (if zIndex ≠ -1 then goIndexF flatCoords zIndex else .ok 0) with
        | .error s => ⟨.panic s, st, false⟩
        | .ok _ =>
          match (if mIndex ≠ -1 then goIndexF flatCoords mIndex else .ok 0) with
          | .error s => ⟨.panic s, st, false⟩
          | .ok _ =>
            TransGeneric st nat direction
              true (8 * stride) n
              true (8 * stride) n
              (zIndex ≠ -1) (if zIndex ≠ -1 then 8 * stride else 0)
              (if zIndex ≠ -1 then n else 0)
              (mIndex ≠ -1) (if mIndex ≠ -1 then 8 * stride else 0)
              (if mIndex ≠ -1 then n else 0)

/-- Embedding of `PJ.ForwardFlatCoords` (pj.go). -/
def ForwardFlatCoords (st : Int) (nat : TransGenericNative)
    (flatCoords : List Float) (stride zIndex mIndex : Int) : TransResult Unit :=
  TransFlatCoords st nat .fwd flatCoords stride zIndex mIndex

/-- Embedding of `PJ.InverseFlatCoords` (pj.go). -/
def InverseFlatCoords (st : Int) (nat : TransGenericNative)
    (flatCoords : List Float) (stride zIndex mIndex : Int) : TransResult Unit :=
  TransFlatCoords st nat .inv flatCoords stride zIndex mIndex

/-- Modelled from the spec: `Float64SlicesToCoords` lives in coord.go, which
is not under src/ (only its caller `TransFloat64Slices` is).  Spec section
4.3 describes it as converting a sequence of 2-to-4-element slices into a
sequence of fixed 4-field coordinates, element-wise, missing fields zero. -/
def Float64SlicesToCoords (float64Slices : List (List Float)) : List Coord :=
  float64Slices.map fun s =>
    ⟨s.getD 0 0, s.getD 1 0, s.getD 2 0, s.getD 3 0⟩

/-- Embedding of `PJ.TransFloat64Slices` (pj.go): converts the slices to
coords, delegates to `TransArray`, and on success copies each transformed
coord back into the caller's slices (the copy loop ranges over `coords`,
whose length equals that of `float64Slices`, so it is in-bounds). -/
def TransFloat64Slices (st : Int) (nat : TransArrayNative) (direction : Direction)
    (float64Slices : List (List Float)) : TransResult Unit :=
  let coords := Float64SlicesToCoords float64Slices
  let r := TransArray st nat direction coords
  match r.out with
  | .ok _ => ⟨.ok (), r.errno, r.nativeCalled⟩
  | .fail e => ⟨.fail e, r.errno, r.nativeCalled⟩
  | .panic s => ⟨.panic s, r.errno, r.nativeCalled⟩

/-- Embedding of `PJ.ForwardFloat64Slices` (pj.go). -/
def ForwardFloat64Slices (st : Int) (nat : TransArrayNative)
    (float64Slices : List (List Float)) : TransResult Unit :=
  TransFloat64Slices st nat .fwd float64Slices

/-- Embedding of `PJ.InverseFloat64Slices` (pj.go). -/
def InverseFloat64Slices (st : Int) (nat : TransArrayNative)
    (float64Slices : List (List Float)) : TransResult Unit :=
  TransFloat64Slices st nat .inv float64Slices

/-- Embedding of `PJ.TransFloat64Slice` (pj.go): copies the slice into a
fixed Coord, delegates to `Trans`, copies back preserving length. -/
def TransFloat64Slice (st : Int) (nat : TransNative) (direction : Direction)
    (float64Slice : List Float) : TransResult (List Float) :=
  let coord : Coord :=
    ⟨float64Slice.getD 0 0, float64Slice.getD 1 0,
      float64Slice.getD 2 0, float64Slice.getD 3 0⟩
  let r := Trans st nat direction coord
  match r.out with
  | .ok c =>
      ⟨.ok (List.take float64Slice.length [c.x, c.y, c.z, c.m]
          ++ float64Slice.drop 4), r.errno, r.nativeCalled⟩
  | .fail e => ⟨.fail e, r.errno, r.nativeCalled⟩
  | .panic s => ⟨.panic s, r.errno, r.nativeCalled⟩

/-- Context state: the native `PJ_CONTEXT` engine handle (none = nil), as in
`type Context struct { mutex sync.Mutex; pjContext *C.PJ_CONTEXT }`
(context.go). -/
structure Context where
  pjContext : Option Nat
deriving DecidableEq, Repr

/-- Embedding of `var defaultContext = &Context{}` (context.go): the
package-level default context is the zero value — its engine handle is nil
and no initializer ever assigns one. -/
def defaultContext : Context := ⟨none⟩

/-- Embedding of `NewContext` (context.go): `proj_context_create()` returns a
fresh non-null engine handle `h`, logging is disabled on it, and the handle is
stored in the returned Context. -/
def NewContext (h : Nat) : Context := ⟨some h⟩

/-- Descriptor of one native call made by a Context method: the native entry
point's name and the `PJ_CONTEXT*` argument handed to it. -/
structure NativeCall where
  func : String
  ctxHandle : Option Nat
deriving DecidableEq, Repr

/-- Embedding of the native call made by `Context.New` (context.go):
`proj_create(c.pjContext, cDefinition)`. -/
def contextNewCall (c : Context) (definition : String) : NativeCall :=
  ⟨"proj_create", c.pjContext⟩

/-- Embedding of the native call made by `Context.NewFromArgs` (context.go):
`proj_create_argv(c.pjContext, len(cArgs), &cArgs[0])`. -/
def contextNewFromArgsCall (c : Context) (args : List String) : NativeCall :=
  ⟨"proj_create_argv", c.pjContext⟩

/-- Embedding of the native call made by `Context.NewCRSToCRS` (context.go):
`proj_create_crs_to_crs(c.pjContext, ...)`. -/
def contextNewCRSToCRSCall (c : Context) (sourceCRS targetCRS : String) : NativeCall :=
  ⟨"proj_create_crs_to_crs", c.pjContext⟩

/-- Embedding of the native call made by `Context.NewCRSToCRSFromPJ`
(context.go): `proj_create_crs_to_crs_from_pj(c.pjContext, ...)`. -/
def contextNewCRSToCRSFromPJCall (c : Context) (options : String) : NativeCall :=
  ⟨"proj_create_crs_to_crs_from_pj", c.pjContext⟩

/-- Embedding of the native call made by `Context.CreateCompoundCrs`
(context.go): `proj_create_compound_crs(c.pjContext, cName, ...)`. -/
def contextCreateCompoundCrsCall (c : Context) (name : String) : NativeCall :=
  ⟨"proj_create_compound_crs", c.pjContext⟩

/-- Embedding of the native call made by `Context.GetAuthoritiesFromDatabase`
(context.go): `proj_get_authorities_from_database(c.pjContext)`. -/
def contextGetAuthoritiesCall (c : Context) : NativeCall :=
  ⟨"proj_get_authorities_from_database", c.pjContext⟩

/-- Embedding of the first native call made by `Context.GetAllCRSCodes`
(context.go): `proj_get_authorities_from_database(c.pjContext)`. -/
def contextGetAllCRSCodesCall (c : Context) : NativeCall :=
  ⟨"proj_get_authorities_from_database", c.pjContext⟩

/-- Embedding of the native call made by `Context.SetLogLevel` (context.go):
`proj_log_level(c.pjContext, ...)`. -/
def contextSetLogLevelCall (c : Context) (logLevel : Int) : NativeCall :=
  ⟨"proj_log_level", c.pjContext⟩

/-- Embedding of package-level `New` (context.go):
`defaultContext.New(definition)`. -/
def topNewCall (definition : String) : NativeCall :=
  contextNewCall defaultContext definition

/-- Embedding of package-level `NewFromArgs` (context.go):
`defaultContext.NewFromArgs(args...)`. -/
def topNewFromArgsCall (args : List String) : NativeCall :=
  contextNewFromArgsCall defaultContext args

/-- Embedding of package-level `NewCRSToCRS` (context.go):
`defaultContext.NewCRSToCRS(...)`. -/
def topNewCRSToCRSCall (sourceCRS targetCRS : String) : NativeCall :=
  contextNewCRSToCRSCall defaultContext sourceCRS targetCRS

/-- Embedding of package-level `NewCRSToCRSFromPJ` (context.go):
`defaultContext.NewCRSToCRSFromPJ(...)`. -/
def topNewCRSToCRSFromPJCall (options : String) : NativeCall :=
  contextNewCRSToCRSFromPJCall defaultContext options

/-- Embedding of package-level `CreateCompoundCrs` (context.go):
`defaultContext.CreateCompoundCrs(...)`. -/
def topCreateCompoundCrsCall (name : String) : NativeCall :=
  contextCreateCompoundCrsCall defaultContext name

/-- Embedding of package-level `GetAuthoritiesFromDatabase` (context.go). -/
def topGetAuthoritiesCall : NativeCall :=
  contextGetAuthoritiesCall defaultContext

/-- Embedding of package-level `GetAllCRSCodes` (context.go). -/
def topGetAllCRSCodesCall : NativeCall :=
  contextGetAllCRSCodesCall defaultContext

/-- Embedding of package-level `SetLogLevel` (context.go). -/
def topSetLogLevelCall (logLevel : Int) : NativeCall :=
  contextSetLogLevelCall defaultContext logLevel

/-- The `crs_name` argument `Context.CreateCompoundCrs` (context.go) passes
to `proj_create_compound_crs`, modelled statement-by-statement.  The Go
source declares `var cName *C.char` (nil) and, inside `if len(name) > 0`,
writes `cName := C.CString(name)` — a short variable declaration that
introduces a NEW, shadowed `cName` scoped to the if-block (immediately freed
by the deferred free); the outer `cName` that is passed to the native call is
never assigned. -/
def createCompoundCrsCName (name : String) : Option String :=
  let cName : Option String := none
  if 0 < name.length then
    let _cNameShadowed : Option String := some name
    cName
  else
    cName

/-- The `crs_name` argument that the claim (and the Go comment above the
if-block: only pass a non-null pointer when the text is not empty) says
should be passed: null for the empty name, a C string holding exactly `name`
otherwise. -/
def intendedCompoundCrsCName (name : String) : Option String :=
  if 0 < name.length then some name else none

/-- Go slice indexing for the C-string argv in `NewFromArgs`: taking
`&cArgs[i]` of a slice panics when the index is out of range. -/
def goIndexS (l : List String) (i : Nat) : Except String String :=
  if h : i < l.length then .ok (l.get ⟨i, h⟩)
  else .error "index out of range"

/-- Embedding of the marshaling in `Context.NewFromArgs` (context.go):
`cArgs := make([]*C.char, len(args))`, each `cArgs[i]` is set to
`C.CString(args[i])` (every loop access in bounds by construction), then the
address `&cArgs[0]` of the first element is taken for the
`proj_create_argv(c.pjContext, len(cArgs), &cArgs[0])` call.  The outcome is
the argv actually handed to the native call, or the runtime panic raised
before any native call. -/
def NewFromArgsArgv (args : List String) : Outcome (List String) :=
  let cArgs := args.map (fun a => a)
  match goIndexS cArgs 0 with
  | .error s => .panic s
  | .ok _ => .ok cArgs

/-- The sequence of context-mutex acquisitions performed by
`Context.NewCRSToCRSFromPJ` (context.go), with contexts named by identity:
`c.Lock()`, then `sourcePJ.context.Lock()` when that context is not `c`,
then `targetPJ.context.Lock()` when that context is neither `c` nor the
source's. -/
def newCRSToCRSFromPJLockSeq (self src tgt : Nat) : List Nat :=
  [self]
    ++ (if src ≠ self then [src] else [])
    ++ (if tgt ≠ self ∧ tgt ≠ src then [tgt] else [])

/-- The sequence of context-mutex acquisitions performed by
`Context.CreateCompoundCrs` (context.go): `c.Lock()`, then the horizontal
PJ's context when distinct, then the vertical PJ's context when distinct
from both. -/
def createCompoundCrsLockSeq (self horiz vert : Nat) : List Nat :=
  [self]
    ++ (if horiz ≠ self then [horiz] else [])
    ++ (if vert ≠ self ∧ vert ≠ horiz then [vert] else [])

/-- Whether lock `a` is acquired strictly before lock `b` in sequence `l`. -/
def acquiredBefore (l : List Nat) (a b : Nat) : Bool :=
  match l.indexOf? a, l.indexOf? b with
  | some i, some j => i < j
  | _, _ => false

/-- Two lock-acquisition sequences can deadlock when there are two distinct
locks each sequence acquires, taken in opposite orders: one thread then holds
the earlier lock of its own sequence while waiting for the other thread's. -/
def canDeadlock (l1 l2 : List Nat) : Bool :=
  l1.any fun a => l2.any fun b =>
    a ≠ b && acquiredBefore l1 a b && acquiredBefore l2 b a

/-- Events observable during handle destruction: acquiring and releasing a
context's mutex, and the native release calls `proj_destroy` /
`proj_context_destroy` on a handle. -/
inductive DEvent where
  | lockCtx (cid : Nat)
  | unlockCtx (cid : Nat)
  | freePJ (h : Nat)
  | freeCtx (h : Nat)
deriving DecidableEq, Repr

/-- State of a PJ for destruction purposes: the identity of its owning
context (whose mutex `Destroy` takes) and its native handle, nil once
destroyed. -/
structure PJState where
  ctxId : Nat
  pj : Option Nat
deriving DecidableEq, Repr

/-- State of a Context for destruction purposes: its identity and its native
engine handle, nil once destroyed. -/
structure CtxState where
  id : Nat
  pjContext : Option Nat
deriving DecidableEq, Repr

/-- Embedding of `PJ.Destroy` (pj.go): lock the owning context, free the
native handle only if still non-nil, nil it out, unlock (deferred, so the
lock is held across the whole operation). -/
def pjDestroy (s : PJState) : PJState × List DEvent :=
  match s.pj with
  | some h => (⟨s.ctxId, none⟩, [.lockCtx s.ctxId, .freePJ h, .unlockCtx s.ctxId])
  | none => (s, [.lockCtx s.ctxId, .unlockCtx s.ctxId])

/-- Embedding of `Context.Destroy` (context.go): lock self, free the native
engine handle only if still non-nil, nil it out, unlock (deferred). -/
def ctxDestroy (c : CtxState) : CtxState × List DEvent :=
  match c.pjContext with
  | some h => (⟨c.id, none⟩, [.lockCtx c.id, .freeCtx h, .unlockCtx c.id])
  | none => (c, [.lockCtx c.id, .unlockCtx c.id])

/-- A family of destructible native handles derived from one context (the
context's own engine handle and each PJ's handle) as a list of slots, each
nil once destroyed.  Both `PJ.Destroy` and `Context.Destroy` follow the same
guarded pattern on their slot: free only when non-nil, then nil out. -/
def destroySlot (slots : List (Option Nat)) (i : Nat) : List (Option Nat) × List Nat :=
  match slots[i]? with
  | some (some h) => (slots.set i none, [h])
  | _ => (slots, [])

/-- Running a sequence of destroy calls (in any order, with repetitions)
against the slot family, collecting every native handle actually freed. -/
def runDestroys (slots : List (Option Nat)) : List Nat → List (Option Nat) × List Nat
  | [] => (slots, [])
  | i :: rest =>
    let step := destroySlot slots i
    let tail := runDestroys step.1 rest
    (tail.1, step.2 ++ tail.2)

/-- The live native handles of a slot family. -/
def heldHandles (slots : List (Option Nat)) : List Nat :=
  slots.filterMap id

/-- Oracle for one `proj_crs_get_sub_crs` probe: for each index, the raw PJ
handle returned (none = null) and the value it leaves in the error
register. -/
structure SubCRSNative where
  probe : Nat → Option Nat × Int

/-- Embedding of `PJ.GetSubCRS` (pj.go): errno is reset (old value restored
by defer on every path), `proj_crs_get_sub_crs` is called; a nonzero errno
yields a wrapped typed error, a null return with errno 0 yields (nil, nil)
meaning end-of-list, and a non-null return is wrapped into a new PJ (which
cannot fail for a non-null raw handle). -/
def GetSubCRS (st : Int) (nat : SubCRSNative) (index : Nat) :
    Except GoErr (Option Nat) × Int :=
  let lastErrno := st
  let rawPj := (nat.probe index).1
  let reg := (nat.probe index).2
  if reg ≠ 0 then
    (.error (.wrap ("failed to get sub-crs " ++ Nat.repr index) (.projError reg)),
      lastErrno)
  else
    match rawPj with
    | none => (.ok none, lastErrno)
    | some h => (.ok (some h), lastErrno)

/-- Loop body of `PJ.ListSubCRS` (pj.go): `for i := 0; i < maxTries; i++`
with `maxTries = 100`, carried here as fuel `100 - i`.  A probe error aborts
with that error; a nil probe result ends the listing with the collected
handles; otherwise the result is appended and the next index probed. -/
def listSubCRSLoop (st : Int) (nat : SubCRSNative) :
    Nat → Nat → List Nat → Except GoErr (List Nat)
  | _, 0, _ => .error (.plain "listing sub-crs aborted after 100 runs")
  | i, fuel + 1, acc =>
    match (GetSubCRS st nat i).1 with
    | .error e => .error e
    | .ok none => .ok acc
    | .ok (some h) => listSubCRSLoop st nat (i + 1) fuel (acc ++ [h])

/-- Embedding of `PJ.ListSubCRS` (pj.go): probe indices 0, 1, 2, ... with
`GetSubCRS` under the hard bound of 100 iterations; if the loop exhausts the
bound without the end-of-list signal, return the aborted error. -/
def ListSubCRS (st : Int) (nat : SubCRSNative) : Except GoErr (List Nat) :=
  listSubCRSLoop st nat 0 100 []

/-- WKT variants; the Go values mirror the C `PJ_WKT_TYPE` enum, in which
PJ_WKT2_2018 aliases PJ_WKT2_2019 and PJ_WKT2_2018_SIMPLIFIED aliases
PJ_WKT2_2019_SIMPLIFIED. -/
def WKTType := Int
deriving DecidableEq, Repr

/-- Embedding of `WKTType.ToString` (pj.go). -/
def wktTypeToString (t : WKTType) : String :=
  if t = (0 : Int) then "PJ_WKT2_2015"
  else if t = (1 : Int) then "PJ_WKT2_2015_SIMPLIFIED"
  else if t = (2 : Int) then "PJ_WKT2_2018"
  else if t = (3 : Int) then "PJ_WKT2_2018_SIMPLIFIED"
  else if t = (4 : Int) then "PJ_WKT1_GDAL"
  else if t = (5 : Int) then "PJ_WKT1_ESRI"
  else ""

/-- Oracle for `proj_as_wkt`: the exported string (none = null return) and
the effect of the call on the error register. -/
structure AsWktNative where
  wkt : Option String
  errnoEffect : Int → Int

/-- Embedding of `PJ.AsWkt` (pj.go): errno reset (restored by defer on every
path), `proj_as_wkt` called; a nonzero errno yields the typed errno error; a
null string with errno 0 yields the distinct incompatible-export error built
with `fmt.Errorf`; otherwise the exported string is returned. -/
def AsWkt (st : Int) (nat : AsWktNative) (wktType : WKTType) :
    TransResult String :=
  let lastErrno := st
  let reg := nat.errnoEffect 0
  if reg ≠ 0 then ⟨.fail (.projError reg), lastErrno, true⟩
  else
    match nat.wkt with
    | none =>
      ⟨.fail (.plain ("projection not compatible with an export to "
          ++ wktTypeToString wktType)), lastErrno, true⟩
    | some s => ⟨.ok s, lastErrno, true⟩

/-- The sub-CRS handles collected by a clean run of the listing loop that
starts probing at index `i` and sees `k` consecutive non-null, errno-0
probes. -/
def collectFrom (nat : SubCRSNative) (i : Nat) : Nat → List Nat
  | 0 => []
  | k + 1 => ((nat.probe i).1).getD 0 :: collectFrom nat (i + 1) k

/-- Concrete native behavior for `TransBounds`: the call succeeds (returns
nonzero) but leaves 5 in the error register. -/
def boundsNativeLeaves5 : TransBoundsNative :=
  ⟨1, ⟨0, 0, 0, 0⟩, fun _ => 5⟩

/-- Concrete sub-CRS oracle: indices 0 and 1 yield handles 10 and 11, index
2 signals end-of-list. -/
def subCRSProbeTwo : SubCRSNative :=
  ⟨fun i => if i < 2 then (some (i + 10), 0) else (none, 0)⟩

/-- Concrete sub-CRS oracle: the first probe is a null return with errno
42. -/
def subCRSProbeErr : SubCRSNative :=
  ⟨fun _ => (none, 42)⟩

/-- Concrete sub-CRS oracle: every probe yields a handle, end-of-list is
never signaled. -/
def subCRSProbeEndless : SubCRSNative :=
  ⟨fun _ => (some 5, 0)⟩

/-- Trans leaves the error register at its entry value on both paths. -/
theorem trans_errno_eq (st : Int) (nat : TransNative) (d : Direction) (c : Coord) :
    (Trans st nat d c).errno = st := by
  simp only [Trans]
  split <;> rfl

/-- TransArray leaves the error register at its entry value on all paths. -/
theorem transArray_errno_eq (st : Int) (nat : TransArrayNative) (d : Direction)
    (coords : List Coord) : (TransArray st nat d coords).errno = st := by
  unfold TransArray
  split
  · rfl
  · split <;> rfl

/-- TransGeneric leaves the error register at its entry value on both
paths. -/
theorem transGeneric_errno_eq (st : Int) (nat : TransGenericNative) (d : Direction)
    (x : Bool) (sx nx : Int) (y : Bool) (sy ny : Int)
    (z : Bool) (sz nz : Int) (m : Bool) (sm nm : Int) :
    (TransGeneric st nat d x sx nx y sy ny z sz nz m sm nm).errno = st := by
  unfold TransGeneric
  split <;> rfl

/-- TransFlatCoords leaves the error register at its entry value on all
paths. -/
theorem transFlatCoords_errno_eq (st : Int) (nat : TransGenericNative) (d : Direction)
    (flatCoords : List Float) (stride zIndex mIndex : Int) :
    (TransFlatCoords st nat d flatCoords stride zIndex mIndex).errno = st := by
  unfold TransFlatCoords
  split
  · rfl
  · split
    · rfl
    · cases goIndexF flatCoords 0 with
      | error s => simp
      | ok v0 =>
        simp only
        cases goIndexF flatCoords 1 with
        | error s => simp
        | ok v1 =>
          simp only
          cases hz : (if zIndex ≠ -1 then goIndexF flatCoords zIndex else .ok 0) with
          | error s => simp [hz]
          | ok vz =>
            simp only [hz]
            cases hm : (if mIndex ≠ -1 then goIndexF flatCoords mIndex else .ok 0) with
            | error s => simp [hm]
            | ok vm => simp [hm, transGeneric_errno_eq]

/-- TransFloat64Slices leaves the error register at its entry value. -/
theorem transFloat64Slices_errno_eq (st : Int) (nat : TransArrayNative)
    (d : Direction) (float64Slices : List (List Float)) :
    (TransFloat64Slices st nat d float64Slices).errno = st := by
  unfold TransFloat64Slices
  cases h : (TransArray st nat d (Float64SlicesToCoords float64Slices)).out with
  | ok a => simpa [h] using transArray_errno_eq st nat d (Float64SlicesToCoords float64Slices)
  | fail e => simpa [h] using transArray_errno_eq st nat d (Float64SlicesToCoords float64Slices)
  | panic s => simpa [h] using transArray_errno_eq st nat d (Float64SlicesToCoords float64Slices)

/-- TransFloat64Slice leaves the error register at its entry value. -/
theorem transFloat64Slice_errno_eq (st : Int) (nat : TransNative)
    (d : Direction) (float64Slice : List Float) :
    (TransFloat64Slice st nat d float64Slice).errno = st := by
  simp only [TransFloat64Slice]
  split <;> simp [trans_errno_eq]

/-- Claim C1 (counterexample).  The claim asserts that every transform-family
call, TransBounds included, saves, resets and restores the per-context errno
so the register is left unchanged.  TransBounds contains no
reset/restore: with a native behavior that succeeds but leaves errno 5, a
TransBounds call entered with errno 0 returns with the register at 5. -/
theorem transBounds_leaves_errno_changed :
    (TransBounds 0 boundsNativeLeaves5 .fwd ⟨0, 0, 0, 0⟩ 21).errno = 5 ∧
    (TransBounds 0 boundsNativeLeaves5 .fwd ⟨0, 0, 0, 0⟩ 21).errno ≠ 0 := by
  constructor
  · rfl
  · intro h
    have : (5 : Int) = 0 := by
      calc (5 : Int) = (TransBounds 0 boundsNativeLeaves5 .fwd ⟨0, 0, 0, 0⟩ 21).errno := rfl
        _ = 0 := h
    exact absurd this (by decide)

/-- Claim C1 (amended).  Trans, TransArray, TransGeneric — and every wrapper built
on them: Forward, Inverse, ForwardArray, InverseArray, TransFlatCoords,
ForwardFlatCoords, InverseFlatCoords, TransFloat64Slice, TransFloat64Slices,
ForwardFloat64Slices, InverseFloat64Slices — save the error register, reset
it before the native transform call, and restore the saved value on every
exit path, so the per-context error register is left unchanged; TransBounds
is the exception and performs no save/reset/restore. -/
theorem trans_family_errno_restored :
    ∀ (st : Int) (nt : TransNative) (na : TransArrayNative)
      (ng : TransGenericNative) (d : Direction) (coord : Coord)
      (coords : List Coord) (flatCoords : List Float)
      (stride zIndex mIndex : Int) (float64Slice : List Float)
      (float64Slices : List (List Float))
      (x : Bool) (sx nx : Int) (y : Bool) (sy ny : Int)
      (z : Bool) (sz nz : Int) (m : Bool) (sm nm : Int),
      (Trans st nt d coord).errno = st ∧
      (Forward st nt coord).errno = st ∧
      (Inverse st nt coord).errno = st ∧
      (TransArray st na d coords).errno = st ∧
      (ForwardArray st na coords).errno = st ∧
      (InverseArray st na coords).errno = st ∧
      (TransGeneric st ng d x sx nx y sy ny z sz nz m sm nm).errno = st ∧
      (TransFlatCoords st ng d flatCoords stride zIndex mIndex).errno = st ∧
      (ForwardFlatCoords st ng flatCoords stride zIndex mIndex).errno = st ∧
      (InverseFlatCoords st ng flatCoords stride zIndex mIndex).errno = st ∧
      (TransFloat64Slice st nt d float64Slice).errno = st ∧
      (TransFloat64Slices st na d float64Slices).errno = st ∧
      (ForwardFloat64Slices st na float64Slices).errno = st ∧
      (InverseFloat64Slices st na float64Slices).errno = st := by
  intro st nt na ng d coord coords flatCoords stride zIndex mIndex
    float64Slice float64Slices x sx nx y sy ny z sz nz m sm nm
  refine ⟨trans_errno_eq .., trans_errno_eq .., trans_errno_eq ..,
    transArray_errno_eq .., transArray_errno_eq .., transArray_errno_eq ..,
    transGeneric_errno_eq .., transFlatCoords_errno_eq ..,
    transFlatCoords_errno_eq .., transFlatCoords_errno_eq ..,
    transFloat64Slice_errno_eq .., transFloat64Slices_errno_eq ..,
    transFloat64Slices_errno_eq .., transFloat64Slices_errno_eq ..⟩

/-- Claim C2.  TransGeneric returns no error exactly when the native call's
returned processed-count equals `max(nx, ny, nz, nm)`; for any other count it
returns the typed error built from the errno the native call left in the
register, and that error value carries that errno. -/
theorem transGeneric_success_iff_count_eq_max :
    ∀ (st : Int) (nat : TransGenericNative) (d : Direction)
      (x : Bool) (sx nx : Int) (y : Bool) (sy ny : Int)
      (z : Bool) (sz nz : Int) (m : Bool) (sm nm : Int),
      (nat.retCount = max (max (max nx ny) nz) nm ∧
        (TransGeneric st nat d x sx nx y sy ny z sz nz m sm nm).out = .ok ()) ∨
      (nat.retCount ≠ max (max (max nx ny) nz) nm ∧
        (TransGeneric st nat d x sx nx y sy ny z sz nz m sm nm).out
          = .fail (.projError (nat.errnoEffect 0))) := by
  intro st nat d x sx nx y sy ny z sz nz m sm nm
  by_cases h : nat.retCount = max (max (max nx ny) nz) nm
  · exact Or.inl ⟨h, by simp [TransGeneric, h]⟩
  · exact Or.inr ⟨h, by simp [TransGeneric, h]⟩

/-- Claim C5.  On empty input, TransArray, TransFlatCoords and TransFloat64Slices
return no error, make no native call, do not touch the error register, and
do not panic — in particular TransFlatCoords does not divide by `stride`
(even a zero stride, whose division would panic, is harmless) and TransArray
does not take the address of the first element of the empty slice. -/
theorem empty_input_is_noop :
    ∀ (st : Int) (na : TransArrayNative) (ng : TransGenericNative)
      (d : Direction) (stride zIndex mIndex : Int),
      TransArray st na d [] = ⟨.ok (), st, false⟩ ∧
      TransFlatCoords st ng d [] stride zIndex mIndex = ⟨.ok (), st, false⟩ ∧
      TransFloat64Slices st na d [] = ⟨.ok (), st, false⟩ := by
  intro st na ng d stride zIndex mIndex
  exact ⟨rfl, rfl, rfl⟩

/-- Claim C3.  The claim — matching the Go comment above the if-block — says a
non-empty `name` is passed to `proj_create_compound_crs` as a C string
containing exactly `name`.  The short variable declaration inside
`if len(name) > 0` shadows the outer `cName`, so the native call receives a
null `crs_name` for every input: at the non-empty name "compound" the
pointer actually passed is null while the intended marshaling passes the
string. -/
theorem createCompoundCrs_name_never_passed :
    createCompoundCrsCName "compound" = none ∧
    intendedCompoundCrsCName "compound" = some "compound" ∧
    createCompoundCrsCName "compound" ≠ intendedCompoundCrsCName "compound" := by
  refine ⟨rfl, ?_, ?_⟩
  · decide
  · decide

/-- Claim C4 (counterexample).  The claim says the default Context's engine handle
is constructed on first use the way NewContext constructs one, so native
calls through it receive a non-null handle.  In fact `defaultContext` is the
zero value: its handle is nil, unlike any context NewContext returns, and
the package-level `New` forwards that nil handle to `proj_create`. -/
theorem defaultContext_handle_is_null :
    (topNewCall "EPSG:4326").ctxHandle = none ∧
    defaultContext.pjContext = none ∧
    (NewContext 1).pjContext = some 1 ∧
    defaultContext ≠ NewContext 1 := by
  refine ⟨rfl, rfl, rfl, ?_⟩
  simp [defaultContext, NewContext]

/-- Claim C4 (amended).  Every package-level convenience function (New,
NewFromArgs, NewCRSToCRS, NewCRSToCRSFromPJ, CreateCompoundCrs,
GetAuthoritiesFromDatabase, GetAllCRSCodes, SetLogLevel) delegates to the
single process-wide `defaultContext`; that context is created eagerly as the
zero value, its native engine handle is nil and is never constructed, so
every native call made through it receives a null engine handle (which the
native library treats as its own default context), not a handle of its
own. -/
theorem top_functions_share_default_context :
    ∀ (definition sourceCRS targetCRS options name : String)
      (args : List String) (logLevel : Int),
      topNewCall definition = contextNewCall defaultContext definition ∧
      (topNewCall definition).ctxHandle = none ∧
      topNewFromArgsCall args = contextNewFromArgsCall defaultContext args ∧
      (topNewFromArgsCall args).ctxHandle = none ∧
      topNewCRSToCRSCall sourceCRS targetCRS
        = contextNewCRSToCRSCall defaultContext sourceCRS targetCRS ∧
      (topNewCRSToCRSCall sourceCRS targetCRS).ctxHandle = none ∧
      topNewCRSToCRSFromPJCall options
        = contextNewCRSToCRSFromPJCall defaultContext options ∧
      (topNewCRSToCRSFromPJCall options).ctxHandle = none ∧
      topCreateCompoundCrsCall name
        = contextCreateCompoundCrsCall defaultContext name ∧
      (topCreateCompoundCrsCall name).ctxHandle = none ∧
      topGetAuthoritiesCall = contextGetAuthoritiesCall defaultContext ∧
      topGetAuthoritiesCall.ctxHandle = none ∧
      topGetAllCRSCodesCall = contextGetAllCRSCodesCall defaultContext ∧
      topGetAllCRSCodesCall.ctxHandle = none ∧
      topSetLogLevelCall logLevel = contextSetLogLevelCall defaultContext logLevel ∧
      (topSetLogLevelCall logLevel).ctxHandle = none ∧
      defaultContext.pjContext = none := by
  intro definition sourceCRS targetCRS options name args logLevel
  exact ⟨rfl, rfl, rfl, rfl, rfl, rfl, rfl, rfl, rfl, rfl, rfl, rfl, rfl,
    rfl, rfl, rfl, rfl⟩

/-- Claim C10.  NewFromArgs with an empty argument list takes the address of
element 0 of the zero-length C-string slice before the native call, an
out-of-range panic; for any non-empty argument list the marshaling's slice
accesses are in bounds and the full argv reaches the native call. -/
theorem newFromArgs_empty_args_panics :
    NewFromArgsArgv [] = .panic "index out of range" ∧
    ∀ args : List String, args ≠ [] → NewFromArgsArgv args = .ok args := by
  constructor
  · rfl
  · intro args h
    have hlen : 0 < args.length := List.length_pos.mpr h
    simp [NewFromArgsArgv, goIndexS, hlen]

/-- Witness for the C10 theorem at the concrete argument list
["proj=utm", "zone=32"]. -/
theorem newFromArgs_empty_args_panics_witness :
    (["proj=utm", "zone=32"] : List String) ≠ [] ∧
    NewFromArgsArgv ["proj=utm", "zone=32"] = .ok ["proj=utm", "zone=32"] :=
  ⟨by simp,
    newFromArgs_empty_args_panics.2 ["proj=utm", "zone=32"] (by simp)⟩

/-- Claim C9 (counterexample).  The claim says cross-context composition acquires
the distinct context locks in a fixed global order independent of the
receiver, so opposite-direction concurrent composition cannot deadlock.  The
code locks the receiver first: a thread whose receiver is context 1 with
both PJs owned by context 2 acquires [1, 2], while a thread whose receiver
is context 2 with both PJs owned by context 1 acquires [2, 1] — a lock-order
inversion under which each thread can hold its first lock while waiting for
the other's, for NewCRSToCRSFromPJ and CreateCompoundCrs alike. -/
theorem crossContext_lock_order_inverts :
    newCRSToCRSFromPJLockSeq 1 2 2 = [1, 2] ∧
    newCRSToCRSFromPJLockSeq 2 1 1 = [2, 1] ∧
    canDeadlock (newCRSToCRSFromPJLockSeq 1 2 2) (newCRSToCRSFromPJLockSeq 2 1 1)
      = true ∧
    createCompoundCrsLockSeq 1 2 2 = [1, 2] ∧
    createCompoundCrsLockSeq 2 1 1 = [2, 1] ∧
    canDeadlock (createCompoundCrsLockSeq 1 2 2) (createCompoundCrsLockSeq 2 1 1)
      = true := by
  decide

/-- Claim C9 (amended).  NewCRSToCRSFromPJ and CreateCompoundCrs acquire every
distinct involved context lock at most once (the sequence is duplicate-free
and covers self, source and target), but in receiver-first order — self,
then the source PJ's context when distinct, then the target PJ's context
when distinct from both — an order that depends on which context is the
receiver; two threads composing handles from each other's contexts in
opposite directions can therefore deadlock. -/
theorem lock_seq_dedup_receiver_first :
    ∀ self src tgt : Nat,
      (newCRSToCRSFromPJLockSeq self src tgt).Nodup ∧
      (newCRSToCRSFromPJLockSeq self src tgt).head? = some self ∧
      self ∈ newCRSToCRSFromPJLockSeq self src tgt ∧
      src ∈ newCRSToCRSFromPJLockSeq self src tgt ∧
      tgt ∈ newCRSToCRSFromPJLockSeq self src tgt ∧
      (createCompoundCrsLockSeq self src tgt).Nodup ∧
      (createCompoundCrsLockSeq self src tgt).head? = some self ∧
      self ∈ createCompoundCrsLockSeq self src tgt ∧
      src ∈ createCompoundCrsLockSeq self src tgt ∧
      tgt ∈ createCompoundCrsLockSeq self src tgt ∧
      canDeadlock (newCRSToCRSFromPJLockSeq 1 2 2) (newCRSToCRSFromPJLockSeq 2 1 1)
        = true := by
  intro self src tgt
  have hmain : (newCRSToCRSFromPJLockSeq self src tgt).Nodup ∧
      (newCRSToCRSFromPJLockSeq self src tgt).head? = some self ∧
      self ∈ newCRSToCRSFromPJLockSeq self src tgt ∧
      src ∈ newCRSToCRSFromPJLockSeq self src tgt ∧
      tgt ∈ newCRSToCRSFromPJLockSeq self src tgt := by
    unfold newCRSToCRSFromPJLockSeq
    by_cases h1 : src = self <;> by_cases h2 : tgt = self <;>
      by_cases h3 : tgt = src <;>
      simp_all [List.nodup_cons, Ne.symm]
  have hcomp : (createCompoundCrsLockSeq self src tgt).Nodup ∧
      (createCompoundCrsLockSeq self src tgt).head? = some self ∧
      self ∈ createCompoundCrsLockSeq self src tgt ∧
      src ∈ createCompoundCrsLockSeq self src tgt ∧
      tgt ∈ createCompoundCrsLockSeq self src tgt := by
    unfold createCompoundCrsLockSeq
    by_cases h1 : src = self <;> by_cases h2 : tgt = self <;>
      by_cases h3 : tgt = src <;>
      simp_all [List.nodup_cons, Ne.symm]
  exact ⟨hmain.1, hmain.2.1, hmain.2.2.1, hmain.2.2.2.1, hmain.2.2.2.2,
    hcomp.1, hcomp.2.1, hcomp.2.2.1, hcomp.2.2.2.1, hcomp.2.2.2.2, by decide⟩

/-- Claim C8.  AsWkt fails with the errno-derived typed error exactly when the
native call leaves a nonzero errno, and that error carries the errno; when
the native call returns a null string with errno 0 it fails with the
distinct incompatible-export error, which a caller can distinguish from the
errno-derived error type; otherwise it returns the exported WKT string. -/
theorem asWkt_error_protocol :
    ∀ (st : Int) (nat : AsWktNative) (t : WKTType),
      ((∃ e, (AsWkt st nat t).out = .fail (.projError e)) ↔ nat.errnoEffect 0 ≠ 0) ∧
      ((nat.errnoEffect 0 ≠ 0 ∧
          (AsWkt st nat t).out = .fail (.projError (nat.errnoEffect 0))) ∨
        (nat.errnoEffect 0 = 0 ∧ nat.wkt = none ∧
          (AsWkt st nat t).out
            = .fail (.plain ("projection not compatible with an export to "
                ++ wktTypeToString t)) ∧
          GoErr.isProjError (.plain ("projection not compatible with an export to "
              ++ wktTypeToString t)) = false) ∨
        (∃ s, nat.errnoEffect 0 = 0 ∧ nat.wkt = some s ∧
          (AsWkt st nat t).out = .ok s)) := by
  intro st nat t
  by_cases h : nat.errnoEffect 0 = 0
  · cases hw : nat.wkt with
    | none =>
      refine ⟨⟨?_, ?_⟩, Or.inr (Or.inl ⟨h, rfl, by simp [AsWkt, h, hw], rfl⟩)⟩
      · rintro ⟨e, he⟩
        simp [AsWkt, h, hw] at he
      · intro hne
        exact absurd h hne
    | some s =>
      refine ⟨⟨?_, ?_⟩, Or.inr (Or.inr ⟨s, h, rfl, by simp [AsWkt, h, hw]⟩)⟩
      · rintro ⟨e, he⟩
        simp [AsWkt, h, hw] at he
      · intro hne
        exact absurd h hne
  · refine ⟨⟨fun _ => h, fun _ => ⟨nat.errnoEffect 0, by simp [AsWkt, h]⟩⟩,
      Or.inl ⟨h, by simp [AsWkt, h]⟩⟩

/-- Destroying one slot conserves handles: every handle is either still held
afterwards or was freed by this call, counted with multiplicity. -/
theorem destroySlot_count (slots : List (Option Nat)) (i : Nat) (h : Nat) :
    (heldHandles slots).count h
      = ((destroySlot slots i).2).count h
        + (heldHandles (destroySlot slots i).1).count h := by
  induction slots generalizing i with
  | nil => simp [destroySlot, heldHandles]
  | cons a rest ih =>
    cases i with
    | zero =>
      cases a with
      | none => simp [destroySlot, heldHandles]
      | some x =>
        simp [destroySlot, heldHandles, List.count_cons]
        omega
    | succ n =>
      cases hr : rest[n]? with
      | none =>
        simp [destroySlot, List.getElem?_cons_succ, hr, heldHandles]
      | some b =>
        cases b with
        | none =>
          simp [destroySlot, List.getElem?_cons_succ, hr, heldHandles]
        | some x =>
          have hrec := ih n
          simp only [destroySlot, List.getElem?_cons_succ, hr] at hrec ⊢
          cases a with
          | none =>
            simpa [heldHandles, List.set_cons_succ] using hrec
          | some y =>
            simp only [heldHandles, List.filterMap_cons, id, List.set_cons_succ,
              List.count_cons, List.count_append] at hrec ⊢
            omega

/-- Running any sequence of destroy calls conserves handles: the handles
freed over the whole run plus those still held equal those initially held,
counted with multiplicity. -/
theorem runDestroys_count (slots : List (Option Nat)) (cmds : List Nat) (h : Nat) :
    ((runDestroys slots cmds).2).count h
        + (heldHandles ((runDestroys slots cmds).1)).count h
      = (heldHandles slots).count h := by
  induction cmds generalizing slots with
  | nil => simp [runDestroys]
  | cons i rest ih =>
    have hstep := destroySlot_count slots i h
    have htail := ih (destroySlot slots i).1
    simp only [runDestroys, List.count_append]
    omega

/-- Claim C6.  Destroy on a PJ or a Context is idempotent: the first call frees
the native handle and nils it out with the owning context's lock held across
the whole operation (the trace is lock, free, unlock); any further call is a
no-op under the lock that frees nothing; and across any sequence of destroy
calls on the handles derived from a context, issued in any order with any
repetitions, each distinct native handle is freed at most once (and the
embedding is total, so no call panics). -/
theorem destroy_idempotent :
    (∀ (s : PJState) (h : Nat), s.pj = some h →
      pjDestroy s = (⟨s.ctxId, none⟩,
        [.lockCtx s.ctxId, .freePJ h, .unlockCtx s.ctxId])) ∧
    (∀ s : PJState,
      pjDestroy (pjDestroy s).1
        = ((pjDestroy s).1, [.lockCtx s.ctxId, .unlockCtx s.ctxId])) ∧
    (∀ (c : CtxState) (h : Nat), c.pjContext = some h →
      ctxDestroy c = (⟨c.id, none⟩,
        [.lockCtx c.id, .freeCtx h, .unlockCtx c.id])) ∧
    (∀ c : CtxState,
      ctxDestroy (ctxDestroy c).1
        = ((ctxDestroy c).1, [.lockCtx c.id, .unlockCtx c.id])) ∧
    (∀ (slots : List (Option Nat)) (cmds : List Nat) (h : Nat),
      (heldHandles slots).Nodup →
      ((runDestroys slots cmds).2).count h ≤ 1) := by
  refine ⟨?_, ?_, ?_, ?_, ?_⟩
  · intro s h hs
    simp [pjDestroy, hs]
  · intro s
    cases hs : s.pj <;> simp [pjDestroy, hs]
  · intro c h hc
    simp [ctxDestroy, hc]
  · intro c
    cases hc : c.pjContext <;> simp [ctxDestroy, hc]
  · intro slots cmds h hnd
    have hcons := runDestroys_count slots cmds h
    have hone : (heldHandles slots).count h ≤ 1 :=
      List.nodup_iff_count_le_one.mp hnd h
    omega

/-- Witness for the C6 theorem: a PJ with handle 7 owned by context 3, a
context with engine handle 9, and a slot family [1, 2] destroyed with
repetitions. -/
theorem destroy_idempotent_witness :
    (⟨3, some 7⟩ : PJState).pj = some 7 ∧
    pjDestroy ⟨3, some 7⟩ = (⟨3, none⟩, [.lockCtx 3, .freePJ 7, .unlockCtx 3]) ∧
    (⟨4, some 9⟩ : CtxState).pjContext = some 9 ∧
    ctxDestroy ⟨4, some 9⟩ = (⟨4, none⟩, [.lockCtx 4, .freeCtx 9, .unlockCtx 4]) ∧
    (heldHandles [some 1, some 2]).Nodup ∧
    ((runDestroys [some 1, some 2] [0, 0, 1, 0]).2).count 1 ≤ 1 :=
  ⟨rfl, destroy_idempotent.1 ⟨3, some 7⟩ 7 rfl, rfl,
    destroy_idempotent.2.2.1 ⟨4, some 9⟩ 9 rfl, by decide,
    destroy_idempotent.2.2.2.2 [some 1, some 2] [0, 0, 1, 0] 1 (by decide)⟩

/-- The listing loop that sees `k` clean probes (errno 0, non-null) from
index `i` and then the end-of-list signal returns the collected handles. -/
theorem listSubCRSLoop_ends (st : Int) (nat : SubCRSNative) :
    ∀ (k i fuel : Nat) (acc : List Nat), k < fuel →
      (∀ j, j < k → (nat.probe (i + j)).2 = 0 ∧ (nat.probe (i + j)).1 ≠ none) →
      (nat.probe (i + k)).1 = none → (nat.probe (i + k)).2 = 0 →
      listSubCRSLoop st nat i fuel acc = .ok (acc ++ collectFrom nat i k) := by
  intro k
  induction k with
  | zero =>
    intro i fuel acc hf _ h1 h2
    cases fuel with
    | zero => omega
    | succ f =>
      simp only [Nat.add_zero] at h1 h2
      simp [listSubCRSLoop, GetSubCRS, h1, h2, collectFrom]
  | succ n ih =>
    intro i fuel acc hf hclean h1 h2
    cases fuel with
    | zero => omega
    | succ f =>
      obtain ⟨hz, hnn⟩ := hclean 0 (Nat.succ_pos n)
      simp only [Nat.add_zero] at hz hnn
      obtain ⟨hh, hph⟩ := Option.ne_none_iff_exists'.mp hnn
      have hstep : listSubCRSLoop st nat i (f + 1) acc
          = listSubCRSLoop st nat (i + 1) f (acc ++ [hh]) := by
        simp [listSubCRSLoop, GetSubCRS, hz, hph]
      have hshift : ∀ j : Nat, i + 1 + j = i + (j + 1) := by omega
      have hrec := ih (i + 1) f (acc ++ [hh]) (by omega)
        (fun j hj => by
          rw [hshift j]
          exact hclean (j + 1) (by omega))
        (by rw [hshift n]; exact h1)
        (by rw [hshift n]; exact h2)
      rw [hstep, hrec]
      simp [collectFrom, hph]

/-- The listing loop that sees `k` clean probes from index `i` and then a
probe with nonzero errno returns the wrapped errno error. -/
theorem listSubCRSLoop_err (st : Int) (nat : SubCRSNative) :
    ∀ (k i fuel : Nat) (acc : List Nat), k < fuel →
      (∀ j, j < k → (nat.probe (i + j)).2 = 0 ∧ (nat.probe (i + j)).1 ≠ none) →
      (nat.probe (i + k)).2 ≠ 0 →
      listSubCRSLoop st nat i fuel acc
        = .error (.wrap ("failed to get sub-crs " ++ Nat.repr (i + k))
            (.projError ((nat.probe (i + k)).2))) := by
  intro k
  induction k with
  | zero =>
    intro i fuel acc hf _ h2
    cases fuel with
    | zero => omega
    | succ f =>
      simp only [Nat.add_zero] at h2 ⊢
      simp [listSubCRSLoop, GetSubCRS, h2]
  | succ n ih =>
    intro i fuel acc hf hclean h2
    cases fuel with
    | zero => omega
    | succ f =>
      obtain ⟨hz, hnn⟩ := hclean 0 (Nat.succ_pos n)
      simp only [Nat.add_zero] at hz hnn
      obtain ⟨hh, hph⟩ := Option.ne_none_iff_exists'.mp hnn
      have hstep : listSubCRSLoop st nat i (f + 1) acc
          = listSubCRSLoop st nat (i + 1) f (acc ++ [hh]) := by
        simp [listSubCRSLoop, GetSubCRS, hz, hph]
      have hshift : ∀ j : Nat, i + 1 + j = i + (j + 1) := by omega
      have hrec := ih (i + 1) f (acc ++ [hh]) (by omega)
        (fun j hj => by
          rw [hshift j]
          exact hclean (j + 1) (by omega))
        (by rw [hshift n]; exact h2)
      rw [hstep, hrec, hshift n]

/-- The listing loop whose every probe within the fuel is clean exhausts the
fuel and returns the aborted error. -/
theorem listSubCRSLoop_endless (st : Int) (nat : SubCRSNative) :
    ∀ (fuel i : Nat) (acc : List Nat),
      (∀ j, j < fuel → (nat.probe (i + j)).2 = 0 ∧ (nat.probe (i + j)).1 ≠ none) →
      listSubCRSLoop st nat i fuel acc
        = .error (.plain "listing sub-crs aborted after 100 runs") := by
  intro fuel
  induction fuel with
  | zero =>
    intro i acc _
    simp [listSubCRSLoop]
  | succ f ih =>
    intro i acc hclean
    obtain ⟨hz, hnn⟩ := hclean 0 (Nat.succ_pos f)
    simp only [Nat.add_zero] at hz hnn
    obtain ⟨hh, hph⟩ := Option.ne_none_iff_exists'.mp hnn
    have hstep : listSubCRSLoop st nat i (f + 1) acc
        = listSubCRSLoop st nat (i + 1) f (acc ++ [hh]) := by
      simp [listSubCRSLoop, GetSubCRS, hz, hph]
    have hshift : ∀ j : Nat, i + 1 + j = i + (j + 1) := by omega
    rw [hstep]
    exact ih (i + 1) (acc ++ [hh])
      (fun j hj => by
        rw [hshift j]
        exact hclean (j + 1) (by omega))

/-- Claim C7.  ListSubCRS probes sub-CRS components at increasing indices 0, 1, 2,
... and returns the collected handles when a probe yields a null return with
errno 0 (end-of-list); if a probe yields a null return with nonzero errno,
that wrapped errno error is returned; and if end-of-list is not signaled
within the hard bound of 100 iterations, it terminates with the aborted
error rather than looping. -/
theorem listSubCRS_probes_until_end :
    ∀ (st : Int) (nat : SubCRSNative),
      (∀ k, k < 100 →
        (∀ j, j < k → (nat.probe j).2 = 0 ∧ (nat.probe j).1 ≠ none) →
        (nat.probe k).1 = none → (nat.probe k).2 = 0 →
        ListSubCRS st nat = .ok (collectFrom nat 0 k)) ∧
      (∀ k, k < 100 →
        (∀ j, j < k → (nat.probe j).2 = 0 ∧ (nat.probe j).1 ≠ none) →
        (nat.probe k).1 = none → (nat.probe k).2 ≠ 0 →
        ListSubCRS st nat
          = .error (.wrap ("failed to get sub-crs " ++ Nat.repr k)
              (.projError ((nat.probe k).2)))) ∧
      ((∀ j, j < 100 → (nat.probe j).2 = 0 ∧ (nat.probe j).1 ≠ none) →
        ListSubCRS st nat
          = .error (.plain "listing sub-crs aborted after 100 runs")) := by
  intro st nat
  refine ⟨?_, ?_, ?_⟩
  · intro k hk hclean h1 h2
    have := listSubCRSLoop_ends st nat k 0 100 [] hk
      (fun j hj => by simpa using hclean j hj)
      (by simpa using h1) (by simpa using h2)
    simpa [ListSubCRS] using this
  · intro k hk hclean h1 h2
    have := listSubCRSLoop_err st nat k 0 100 [] hk
      (fun j hj => by simpa using hclean j hj)
      (by simpa using h2)
    simpa [ListSubCRS] using this
  · intro hclean
    exact listSubCRSLoop_endless st nat 100 0 []
      (fun j hj => by simpa using hclean j hj)

/-- Witness for the C7 theorem at the three concrete probe oracles: two
clean probes then end-of-list, an immediate null-with-errno-42 probe, and an
endless oracle that exhausts the 100-iteration bound. -/
theorem listSubCRS_probes_until_end_witness :
    ((2 : Nat) < 100 ∧ (subCRSProbeTwo.probe 2).1 = none ∧
      (subCRSProbeTwo.probe 2).2 = 0 ∧
      ListSubCRS 0 subCRSProbeTwo = .ok [10, 11]) ∧
    ((subCRSProbeErr.probe 0).1 = none ∧ (subCRSProbeErr.probe 0).2 ≠ 0 ∧
      ListSubCRS 0 subCRSProbeErr
        = .error (.wrap ("failed to get sub-crs " ++ Nat.repr 0)
            (.projError 42))) ∧
    ListSubCRS 0 subCRSProbeEndless
      = .error (.plain "listing sub-crs aborted after 100 runs") := by
  refine ⟨⟨by decide, by decide, by decide, ?_⟩, ⟨by decide, by decide, ?_⟩, ?_⟩
  · have := (listSubCRS_probes_until_end 0 subCRSProbeTwo).1 2 (by decide)
      (by decide) (by decide) (by decide)
    rw [this]
    rfl
  · have := (listSubCRS_probes_until_end 0 subCRSProbeErr).2.1 0 (by decide)
      (by intro j hj; omega) (by decide) (by decide)
    simpa using this
  · exact (listSubCRS_probes_until_end 0 subCRSProbeEndless).2.2
      (fun j hj => ⟨rfl, by simp [subCRSProbeEndless]⟩)

end Proj
